import Mathlib

set_option maxHeartbeats 1000000

/-
Verification of the PDPA-blur repository against its specification.

The frontend (Nuxt/TypeScript) is embedded directly from the source files
`frontend/stores/useProcessingStore.ts` and the page script found in the
repository (displayProgress, previewBlurPx, extractErrorMessage, pollJob).
The Python backend (frame classifier, job manager, face registry, video
blur engine) is not part of the available sources, so those components are
modelled from the specification, as marked on each definition.
-/

/- ### A model of JavaScript runtime values (for `unknown`-typed data). -/

/-- Model of a JavaScript runtime value as far as the frontend code under
verification discriminates them: undefined, null, booleans, finite numbers
(as rationals), NaN, the two infinities, strings, arrays, Error instances
(with their `message` plus arbitrary extra fields) and plain objects. -/
inductive JsVal : Type where
  | jUndefined : JsVal
  | jNull : JsVal
  | jBool (b : Bool) : JsVal
  | jNum (q : ℚ) : JsVal
  | jNaN : JsVal
  | jInfPos : JsVal
  | jInfNeg : JsVal
  | jStr (s : String) : JsVal
  | jArr (items : List JsVal) : JsVal
  | jErr (message : String) (fields : List (String × JsVal)) : JsVal
  | jObj (fields : List (String × JsVal)) : JsVal

/-- JavaScript truthiness of a value. -/
def JsVal.truthy : JsVal → Bool
  | .jUndefined => false
  | .jNull => false
  | .jBool b => b
  | .jNum q => decide (q ≠ 0)
  | .jNaN => false
  | .jInfPos => true
  | .jInfNeg => true
  | .jStr s => decide (s ≠ "")
  | .jArr _ => true
  | .jErr _ _ => true
  | .jObj _ => true

/-- Lookup of a key in an object field list (first match wins). -/
def findField : List (String × JsVal) → String → Option JsVal
  | [], _ => none
  | (k, v) :: rest, key => if k = key then some v else findField rest key

/-- JavaScript property access `v[key]`: yields undefined on absent keys and
on non-object values (no relevant property of primitives is read by the
code under verification). An Error instance exposes its `message`. -/
def JsVal.getField : JsVal → String → JsVal
  | .jErr m fields, key =>
      if key = "message" then .jStr m else (findField fields key).getD .jUndefined
  | .jObj fields, key => (findField fields key).getD .jUndefined
  | _, _ => .jUndefined

/-- Whether `typeof v === "number"` holds (NaN and infinities included). -/
def jsTypeofNumber : JsVal → Bool
  | .jNum _ => true
  | .jNaN => true
  | .jInfPos => true
  | .jInfNeg => true
  | _ => false

/-- Whether `Number.isNaN(v)` holds. -/
def jsIsNaN : JsVal → Bool
  | .jNaN => true
  | _ => false

/-- Whether `Number.isFinite(v)` holds. -/
def jsIsFiniteNumber : JsVal → Bool
  | .jNum _ => true
  | _ => false

/-- Whether `typeof v === "object" && v !== null` holds. -/
def jsIsObjectNotNull : JsVal → Bool
  | .jArr _ => true
  | .jErr _ _ => true
  | .jObj _ => true
  | _ => false

/-- JavaScript `Math.round`: rounds half-way cases toward positive infinity. -/
def jsRound (q : ℚ) : ℤ := ⌊q + 1 / 2⌋

/- ### The Pinia processing store (frontend/stores/useProcessingStore.ts). -/

/-- `JobState` from the store: the four job lifecycle states. -/
inductive JobState : Type where
  | pending
  | running
  | completed
  | failed
deriving DecidableEq, Fintype, Repr

/-- `ProcessingJob` from the store. `progress` is typed `number` in the
source but carries whatever the poll response held at runtime, so it is
modelled as a JavaScript value. -/
structure ProcessingJob : Type where
  jobId : String
  state : JobState
  progress : JsVal
  message : Option String
  downloadUrl : Option String

/-- A `Partial<ProcessingJob>` argument to `updateJob`: `none` means the
key is absent from the object literal (and thus not spread), while
`some none` on the optional fields means the key is present with value
`undefined` (which the object spread does copy over). -/
structure JobPatch : Type where
  jobId : Option String
  state : Option JobState
  progress : Option JsVal
  message : Option (Option String)
  downloadUrl : Option (Option String)

/-- `updateJob` from the store: no-op when `currentJob` is null, otherwise
replaces `currentJob` with `{ ...currentJob, ...patch }`. -/
def updateJob (currentJob : Option ProcessingJob) (patch : JobPatch) :
    Option ProcessingJob :=
  match currentJob with
  | none => none
  | some j =>
      some
        { jobId := patch.jobId.getD j.jobId
          state := patch.state.getD j.state
          progress := patch.progress.getD j.progress
          message := patch.message.getD j.message
          downloadUrl := patch.downloadUrl.getD j.downloadUrl }

/-- `startJob` from the store. -/
def startJob (job : ProcessingJob) : Option ProcessingJob := some job

/-- `clearJob` from the store. -/
def clearJob : Option ProcessingJob := none

/- ### Page script helpers (pages/index.vue script). -/

/-- `displayProgress` from the page script, as a function of
`jobStatus.value?.progress` (undefined when no current job exists):
non-numbers, NaN and infinities map to 0, finite numbers are rounded and
clamped into [0, 100]. -/
def displayProgress (progressValue : Option JsVal) : ℤ :=
  let v := progressValue.getD .jUndefined
  if !jsTypeofNumber v || jsIsNaN v || !jsIsFiniteNumber v then 0
  else
    match v with
    | .jNum q => max 0 (min 100 (jsRound q))
    | _ => 0

/-- `previewBlurPx` from the page script: `Math.round(selectedBlur * 2.2 + 1)`. -/
def previewBlurPx (selectedBlur : ℚ) : ℤ := jsRound (selectedBlur * (22 / 10) + 1)

/-- The default error message returned by `extractErrorMessage` when no
usable field is found. -/
def defaultErrMsg : String := "เกิดข้อผิดพลาดไม่ทราบสาเหตุ"

/-- JavaScript `a || b`: the first operand when truthy, otherwise the second. -/
def jsOr (a b : JsVal) : JsVal := if a.truthy then a else b

/-- The final `return maybe?.message || maybe?.statusMessage || default` of
`extractErrorMessage`. -/
def finalFallback (e : JsVal) : JsVal :=
  jsOr (e.getField "message") (jsOr (e.getField "statusMessage") (.jStr defaultErrMsg))

/-- The `typeof firstDetail.msg === "string"` check of
`extractErrorMessage`: the `msg` property when it is a string, the final
fallback otherwise. -/
def msgOrFallback (e g : JsVal) : JsVal :=
  match g with
  | .jStr s => .jStr s
  | _ => finalFallback e

/-- The body of `extractErrorMessage` once `detail` was found truthy: a
string detail is returned as is; a non-empty array returns its first
element when that is a string, or its `msg` property when that is a
string; every other shape falls through to the final fallback. -/
def detailBranch (e : JsVal) (detail : JsVal) : JsVal :=
  match detail with
  | .jStr s => .jStr s
  | .jArr (firstDetail :: _) =>
      match firstDetail with
      | .jStr s => .jStr s
      | _ =>
          if jsIsObjectNotNull firstDetail then
            msgOrFallback e (firstDetail.getField "msg")
          else finalFallback e
  | _ => finalFallback e

/-- The part of `extractErrorMessage` after the string and Error checks:
reads `maybe?.data?.detail` and dispatches on its truthiness. -/
def payloadMessage (e : JsVal) : JsVal :=
  let detail := (e.getField "data").getField "detail"
  if detail.truthy then detailBranch e detail else finalFallback e

/-- `extractErrorMessage` from the page script, in full fidelity: the JS
function can in principle return any value (through the trailing `||`
chain), so the result is a JsVal. -/
def extractErrorMessage (error : JsVal) : JsVal :=
  if !error.truthy then .jStr defaultErrMsg
  else
    match error with
    | .jStr s => .jStr s
    | .jErr m fields =>
        if m ≠ "" then .jStr m else payloadMessage (.jErr m fields)
    | e => payloadMessage e

/-- A `message`/`statusMessage` field of an error payload that is either
absent (undefined) or a string, as the `ErrorPayload` type in the source
declares. -/
def isStrOrUndef (v : JsVal) : Prop := v = .jUndefined ∨ ∃ s, v = .jStr s

/-- The shapes of a `detail` value through which `extractErrorMessage`
leaks an empty string: a non-empty array whose first element is the empty
string, or whose first element's `msg` property is the empty string. -/
def detailLeak : JsVal → Prop
  | .jArr (firstDetail :: _) =>
      firstDetail = .jStr "" ∨ firstDetail.getField "msg" = .jStr ""
  | _ => False

/-- An error payload through which `extractErrorMessage` leaks an empty
string: its `data.detail` has one of the leaking shapes. -/
def emptyMsgLeak (e : JsVal) : Prop :=
  detailLeak ((e.getField "data").getField "detail")

/-- The concrete payload on which `extractErrorMessage` returns the empty
string: an API error whose `data.detail` is `[""]`. -/
def emptyDetailPayload : JsVal :=
  .jObj [("data", .jObj [("detail", .jArr [.jStr ""])])]

/- ### Frame Classifier (backend, modelled from the spec). -/

/-- Modelled from the spec: the tunable classifier constants of §4.2 and
§4.6 (the backend `video_service` is not among the available sources).
`fastThreshold` is the stricter fast-mode reference threshold. -/
structure ClassifierConfig : Type where
  matchThreshold : ℚ
  fastThreshold : ℚ
  minConfidenceGap : ℚ
  confirmationThreshold : ℕ
  missTolerance : ℕ

/-- The two processing modes. -/
inductive Mode : Type where
  | fast
  | detailed
deriving DecidableEq

/-- Modelled from the spec: one detected box on a frame, already reduced to
its minimum distance to the reference embeddings and its distance to the
running embedding when the latter has been initialized (§4.2 step 1). -/
structure BoxObs : Type where
  refDist : ℚ
  runDist : Option ℚ

/-- Modelled from the spec: the per-job TrackState hysteresis counters of
§3 (the running embedding itself is abstracted into `BoxObs.runDist`). -/
structure TrackState : Type where
  userHits : ℕ
  userMisses : ℕ
deriving DecidableEq

/-- Classification of a detected box. -/
inductive BoxClass : Type where
  | owner
  | other
deriving DecidableEq

/-- Modelled from the spec: the per-frame decision — the classification of
the best detected box (when a box was detected) plus whether the last
known owner region is carried forward by temporal smoothing (§4.2 step 4). -/
structure FrameDecision : Type where
  boxClass : Option BoxClass
  carriedOwner : Bool
deriving DecidableEq

/-- Whether the running-embedding distance (when initialized) is below the
base match threshold. -/
def runningMatch (cfg : ClassifierConfig) : Option ℚ → Bool
  | some d => decide (d < cfg.matchThreshold)
  | none => false

/-- Whether the best-to-second-best confidence gap requirement holds
(vacuously true when there is no second candidate). -/
def gapOk (cfg : ClassifierConfig) : Option ℚ → Bool
  | some g => decide (cfg.minConfidenceGap < g)
  | none => true

/-- Modelled from the spec: §4.2 step 2 — in `detailed` mode a box is a
candidate owner match if its reference distance or its running-embedding
distance is below the base threshold; in `fast` mode the reference
distance must be below the stricter threshold and the confidence gap must
be large enough, and a running-embedding match alone never suffices. -/
def isCandidate (cfg : ClassifierConfig) (mode : Mode) (b : BoxObs)
    (gap : Option ℚ) : Bool :=
  match mode with
  | .fast => decide (b.refDist < cfg.fastThreshold) && gapOk cfg gap
  | .detailed => decide (b.refDist < cfg.matchThreshold) || runningMatch cfg b.runDist

/-- Modelled from the spec: §4.2 steps 3–5 — one classifier transition for
the best detected box of a frame. On a candidate match the hit counter is
incremented and the miss counter reset, and the box is classified owner
exactly once the hits reach the confirmation threshold (conservatively
other before that). On a non-matching frame the miss counter is
incremented, the box (if any) is classified other, and the previously
confirmed owner region is carried forward while the consecutive misses
stay within the tolerance. Zero detections leave the counters unchanged
unless the owner was previously confirmed. -/
def classifyStep (cfg : ClassifierConfig) (mode : Mode) (st : TrackState)
    (obs : Option BoxObs) (gap : Option ℚ) : TrackState × FrameDecision :=
  match obs with
  | some b =>
      if isCandidate cfg mode b gap then
        let hits := st.userHits + 1
        (⟨hits, 0⟩,
          ⟨some (if cfg.confirmationThreshold ≤ hits then .owner else .other), false⟩)
      else
        let misses := st.userMisses + 1
        (⟨st.userHits, misses⟩,
          ⟨some .other,
            decide (cfg.confirmationThreshold ≤ st.userHits) &&
              decide (misses ≤ cfg.missTolerance)⟩)
  | none =>
      if cfg.confirmationThreshold ≤ st.userHits then
        let misses := st.userMisses + 1
        (⟨st.userHits, misses⟩, ⟨none, decide (misses ≤ cfg.missTolerance)⟩)
      else (st, ⟨none, false⟩)

/-- One detailed-mode classifier step on a synthetic per-frame reference
distance (running embedding not initialized), as in the §8 property. -/
def stepD (cfg : ClassifierConfig) (d : ℚ) (st : TrackState) :
    TrackState × FrameDecision :=
  classifyStep cfg .detailed st (some ⟨d, none⟩) none

/-- Iterated detailed-mode classifier steps on a constant per-frame
distance. -/
def iterD (cfg : ClassifierConfig) (d : ℚ) : ℕ → TrackState → TrackState
  | 0, st => st
  | n + 1, st => (stepD cfg d (iterD cfg d n st)).1

/- ### Job lifecycle (backend, modelled from the spec). -/

/-- The events of the §4.3 job state machine. -/
inductive JobEvent : Type where
  | submit
  | success
  | error
deriving DecidableEq, Fintype

/-- Modelled from the spec: the §4.3 job state machine (the backend
`core/jobs.py` is not among the available sources) —
pending → running → completed | failed, with no transition out of a
terminal state. -/
def jobNext : JobState → JobEvent → Option JobState
  | .pending, .submit => some .running
  | .running, .success => some .completed
  | .running, .error => some .failed
  | _, _ => none

/-- Whether a job state is terminal. -/
def terminalState (s : JobState) : Bool :=
  s = JobState.completed || s = JobState.failed

/- ### Background worker and job record (backend, modelled from the spec). -/

/-- Modelled from the spec: the Job record fields that the §3/§4.3
invariants speak about (the backend job store is not among the available
sources). -/
structure JobRec : Type where
  state : JobState
  framesDone : ℕ
  totalFrames : ℕ
  download : Option String
deriving DecidableEq

/-- A freshly created job: pending, no frame processed, no artifact. -/
def initJob (totalFrames : ℕ) : JobRec :=
  ⟨.pending, 0, totalFrames, none⟩

/-- The progress percentage reported for a job record: frames processed
over total frames (§4.3). -/
def progressOf (r : JobRec) : ℚ := 100 * r.framesDone / r.totalFrames

/-- Modelled from the spec: the transitions the §4.3 worker performs on a
job record — dispatch, per-frame progress, successful finalization with an
artifact, and failure. Terminal states admit no transition. -/
inductive WorkerStep : JobRec → JobRec → Prop where
  | start (r : JobRec) : r.state = .pending → WorkerStep r { r with state := .running }
  | frame (r : JobRec) : r.state = .running → r.framesDone < r.totalFrames →
      WorkerStep r { r with framesDone := r.framesDone + 1 }
  | finish (r : JobRec) (url : String) : r.state = .running →
      r.framesDone = r.totalFrames →
      WorkerStep r { r with state := .completed, download := some url }
  | fail (r : JobRec) : r.state = .running → WorkerStep r { r with state := .failed }

/- ### Face registry registration (backend, modelled from the spec). -/

/-- Modelled from the spec: a submitted reference image, reduced to the
number of dominant faces the external detector finds in it (§4.1). -/
structure RefImage : Type where
  faces : ℕ
deriving DecidableEq

/-- An image is accepted exactly when it yields one dominant face (§4.1). -/
def acceptedImage (img : RefImage) : Bool := img.faces = 1

/-- The registration failure of §4.1/§7. -/
inductive RegError : Type where
  | validationError
deriving DecidableEq

/-- Modelled from the spec: `register` of §4.1 (the backend `face_service`
is not among the available sources) — skips every image without exactly
one dominant face, accumulates the rest, and fails with ValidationError
exactly when no image was accepted. -/
def register (images : List RefImage) : Except RegError ℕ :=
  let count := (images.filter acceptedImage).length
  if count = 0 then .error .validationError else .ok count

/- ### Video blur engine compositing (backend, modelled from the spec). -/

/-- Modelled from the spec: §4.3 frame compositing (the backend
`video_service` is not among the available sources) — the external blur
capability is applied at the job blur intensity to every position inside a
region classified other, and every other position of the frame is copied
through untouched. Frames are abstracted to pixel maps over positions. -/
def blurFrame (blurPixel : ℕ → ℤ → ℤ) (intensity : ℕ)
    (otherRegions : List (ℕ → Bool)) (frame : ℕ → ℤ) : ℕ → ℤ :=
  fun pos =>
    if otherRegions.any (fun r => r pos) then blurPixel intensity (frame pos)
    else frame pos

/- ### Concrete instances used by the witnesses. -/

/-- A concrete classifier configuration used by witnesses. -/
def cfgW : ClassifierConfig :=
  { matchThreshold := 6 / 10
    fastThreshold := 1 / 2
    minConfidenceGap := 1 / 10
    confirmationThreshold := 3
    missTolerance := 2 }

/-- A concrete job used by witnesses. -/
def jobW : ProcessingJob :=
  ⟨"job-1", .running, .jNum 40, some "working", none⟩

/-- A concrete patch (only `progress` present) used by witnesses. -/
def patchW : JobPatch := ⟨none, none, some (.jNum 55), none, none⟩

/-- A concrete image batch (a zero-face image next to a one-face image)
used by witnesses. -/
def imagesW : List RefImage := [⟨0⟩, ⟨1⟩, ⟨3⟩]

/-- A concrete well-formed error payload used by witnesses. -/
def payloadW : JsVal :=
  .jObj [("data", .jObj [("detail", .jStr "upload rejected")])]

/- ### Theorems. -/

/-- Claim C8: for every raw progress value received from a status poll —
including NaN, the infinities, negative numbers, values above 100 and
non-numeric values — the displayed progress is an integer in [0, 100],
and every non-finite or non-numeric value is mapped to 0. -/
theorem displayProgress_in_range (v : Option JsVal) :
    (0 ≤ displayProgress v ∧ displayProgress v ≤ 100)
    ∧ ((∀ q : ℚ, v ≠ some (.jNum q)) → displayProgress v = 0) := by
  rcases v with _ | val
  · exact ⟨by simp [displayProgress], fun _ => rfl⟩
  · cases val with
    | jNum q =>
        refine ⟨⟨?_, ?_⟩, fun h => absurd rfl (h q)⟩
        · simp [displayProgress, jsTypeofNumber, jsIsNaN, jsIsFiniteNumber]
        · simp [displayProgress, jsTypeofNumber, jsIsNaN, jsIsFiniteNumber]
    | jUndefined => exact ⟨by simp [displayProgress], fun _ => rfl⟩
    | jNull => exact ⟨by simp [displayProgress], fun _ => rfl⟩
    | jBool b => exact ⟨by simp [displayProgress], fun _ => rfl⟩
    | jNaN => exact ⟨by simp [displayProgress], fun _ => rfl⟩
    | jInfPos => exact ⟨by simp [displayProgress, jsTypeofNumber, jsIsNaN, jsIsFiniteNumber], fun _ => rfl⟩
    | jInfNeg => exact ⟨by simp [displayProgress, jsTypeofNumber, jsIsNaN, jsIsFiniteNumber], fun _ => rfl⟩
    | jStr s => exact ⟨by simp [displayProgress], fun _ => rfl⟩
    | jArr items => exact ⟨by simp [displayProgress], fun _ => rfl⟩
    | jErr m fields => exact ⟨by simp [displayProgress], fun _ => rfl⟩
    | jObj fields => exact ⟨by simp [displayProgress], fun _ => rfl⟩

/-- Witness for C8: the classifier theorem applied at NaN — NaN displays
as 0. -/
theorem displayProgress_in_range_witness : displayProgress (some .jNaN) = 0 :=
  (displayProgress_in_range (some .jNaN)).2 (by intro q h; simp at h)

/-- Claim C9: `updateJob` applied to a null current job leaves the store
unchanged, and otherwise every field of the current job whose key is
absent from the patch object is unchanged in the replaced job. -/
theorem updateJob_frame_effect (patch : JobPatch) (j : ProcessingJob) :
    updateJob none patch = none
    ∧ ∃ j2, updateJob (some j) patch = some j2
        ∧ (patch.jobId = none → j2.jobId = j.jobId)
        ∧ (patch.state = none → j2.state = j.state)
        ∧ (patch.progress = none → j2.progress = j.progress)
        ∧ (patch.message = none → j2.message = j.message)
        ∧ (patch.downloadUrl = none → j2.downloadUrl = j.downloadUrl) := by
  refine ⟨rfl, _, rfl, ?_, ?_, ?_, ?_, ?_⟩ <;> intro h <;> simp [h]

/-- Witness for C9: updating with a patch carrying only `progress` keeps
the job identifier. -/
theorem updateJob_frame_effect_witness :
    updateJob none patchW = none
    ∧ ∃ j2, updateJob (some jobW) patchW = some j2 ∧ j2.jobId = jobW.jobId := by
  obtain ⟨h1, j2, h2, hid, _, _, _, _⟩ := updateJob_frame_effect patchW jobW
  exact ⟨h1, j2, h2, hid rfl⟩

/-- Claim C3: the job lifecycle only moves along
pending → running → (completed | failed): every transition is one of those
edges, no transition leaves a terminal state, no transition re-enters
`pending`, `running` is entered only from `pending`, and the set of job
states is exactly the four of `JobState`. -/
theorem job_state_machine :
    (∀ s t : JobState, ∀ e : JobEvent,
        (jobNext s e = some t →
          (s = .pending ∧ t = .running) ∨
            (s = .running ∧ (t = .completed ∨ t = .failed)))
        ∧ (terminalState s = true → jobNext s e = none)
        ∧ (jobNext s e = some t → t ≠ .pending)
        ∧ (jobNext s e = some t → t = .running → s = .pending))
    ∧ Fintype.card JobState = 4 := by
  constructor
  · intro s t e
    cases s <;> cases e <;> cases t <;> simp [jobNext, terminalState]
  · rfl

/-- Witness for C3: the state-machine theorem applied at the terminal
state `completed` — no event moves it anywhere. -/
theorem job_state_machine_witness : jobNext .completed .submit = none :=
  (job_state_machine.1 JobState.completed JobState.pending JobEvent.submit).2.1 rfl

/-- Claim C1: in `fast` mode, a detected box whose reference-embedding
match failed (reference distance not below the strict fast threshold) is
never classified owner, whatever its running-embedding distance is. -/
theorem fast_mode_requires_reference_match (cfg : ClassifierConfig)
    (st : TrackState) (b : BoxObs) (gap : Option ℚ)
    (h : cfg.fastThreshold ≤ b.refDist) :
    (classifyStep cfg .fast st (some b) gap).2.boxClass ≠ some .owner := by
  have hm : decide (b.refDist < cfg.fastThreshold) = false := by
    simp [not_lt.mpr h]
  simp [classifyStep, isCandidate, hm]

/-- Witness for C1: with the concrete configuration, a box at reference
distance 1 (no reference match) but running-embedding distance 0 (a
perfect running match) and a comfortable confidence gap is still not
classified owner in fast mode. -/
theorem fast_mode_requires_reference_match_witness :
    (classifyStep cfgW .fast ⟨5, 0⟩ (some ⟨1, some 0⟩) (some 1)).2.boxClass ≠
      some .owner :=
  fast_mode_requires_reference_match cfgW ⟨5, 0⟩ ⟨1, some 0⟩ (some 1)
    (by norm_num [cfgW])

/-- On a matching distance, iterated detailed-mode steps from a fresh
track state accumulate exactly one hit per frame and keep the miss
counter at zero. -/
theorem iterD_matching (cfg : ClassifierConfig) (d : ℚ)
    (hd : d < cfg.matchThreshold) (n : ℕ) :
    iterD cfg d n ⟨0, 0⟩ = ⟨n, 0⟩ := by
  induction n with
  | zero => rfl
  | succ k ih =>
      simp [iterD, ih, stepD, classifyStep, isCandidate, runningMatch, hd]

/-- On a non-matching distance, iterated detailed-mode steps keep the hit
counter and accumulate exactly one miss per frame. -/
theorem iterD_missing (cfg : ClassifierConfig) (d : ℚ)
    (hd : cfg.matchThreshold ≤ d) (hits0 : ℕ) (n : ℕ) :
    iterD cfg d n ⟨hits0, 0⟩ = ⟨hits0, n⟩ := by
  have hm : decide (d < cfg.matchThreshold) = false := by
    simp [not_lt.mpr hd]
  induction n with
  | zero => rfl
  | succ k ih =>
      simp [iterD, ih, stepD, classifyStep, isCandidate, runningMatch, hm]

/-- Claim C2: against a fixed reference embedding and a synthetic sequence
of per-frame distances, a box below the match threshold for
`confirmationThreshold` consecutive frames is classified owner on the
confirming frame and conservatively other on every prior frame; and a
previously confirmed owner is carried for up to `missTolerance`
consecutive non-matching frames, after which the owner classification is
dropped. -/
theorem classifier_hysteresis (cfg : ClassifierConfig) (d dmiss : ℚ) (hits0 : ℕ)
    (hc : 1 ≤ cfg.confirmationThreshold)
    (hmatch : d < cfg.matchThreshold)
    (hmiss : cfg.matchThreshold ≤ dmiss)
    (hconf : cfg.confirmationThreshold ≤ hits0) :
    (∀ i : ℕ, i + 1 < cfg.confirmationThreshold →
        (stepD cfg d (iterD cfg d i ⟨0, 0⟩)).2 = ⟨some .other, false⟩)
    ∧ (stepD cfg d (iterD cfg d (cfg.confirmationThreshold - 1) ⟨0, 0⟩)).2 =
        ⟨some .owner, false⟩
    ∧ (∀ j : ℕ, j < cfg.missTolerance →
        (stepD cfg dmiss (iterD cfg dmiss j ⟨hits0, 0⟩)).2.carriedOwner = true)
    ∧ (stepD cfg dmiss (iterD cfg dmiss cfg.missTolerance ⟨hits0, 0⟩)).2.carriedOwner
        = false := by
  have hm : decide (dmiss < cfg.matchThreshold) = false := by
    simp [not_lt.mpr hmiss]
  refine ⟨?_, ?_, ?_, ?_⟩
  · intro i hi
    have : ¬ cfg.confirmationThreshold ≤ i + 1 := by omega
    simp [iterD_matching cfg d hmatch, stepD, classifyStep, isCandidate,
      runningMatch, hmatch, this]
  · have hone : cfg.confirmationThreshold - 1 + 1 = cfg.confirmationThreshold := by
      omega
    simp [iterD_matching cfg d hmatch, stepD, classifyStep, isCandidate,
      runningMatch, hmatch, hone]
  · intro j hj
    have h1 : j + 1 ≤ cfg.missTolerance := by omega
    simp [iterD_missing cfg dmiss hmiss, stepD, classifyStep, isCandidate,
      runningMatch, hm, hconf, h1]
  · have h2 : ¬ cfg.missTolerance + 1 ≤ cfg.missTolerance := by omega
    simp [iterD_missing cfg dmiss hmiss, stepD, classifyStep, isCandidate,
      runningMatch, hm, hconf, h2]

/-- Witness for C2: with the concrete configuration (confirmation
threshold 3), the third consecutive matching frame at distance 1/2 is
classified owner. -/
theorem classifier_hysteresis_witness :
    (stepD cfgW (1 / 2) (iterD cfgW (1 / 2) 2 ⟨0, 0⟩)).2 = ⟨some .owner, false⟩ := by
  have h := classifier_hysteresis cfgW (1 / 2) 1 3 (by norm_num [cfgW])
    (by norm_num [cfgW]) (by norm_num [cfgW]) (by norm_num [cfgW])
  exact h.2.1

/-- Every worker transition keeps the total frame count and never
decreases the processed frame count. -/
theorem workerStep_frames (r r2 : JobRec) (h : WorkerStep r r2) :
    r.framesDone ≤ r2.framesDone ∧ r2.totalFrames = r.totalFrames := by
  cases h <;> simp

/-- The reported progress percentage is monotone in the processed frame
count at a fixed total. -/
theorem progressOf_le (r r2 : JobRec) (hfd : r.framesDone ≤ r2.framesDone)
    (ht : r2.totalFrames = r.totalFrames) :
    progressOf r ≤ progressOf r2 := by
  unfold progressOf
  rw [ht]
  rcases Nat.eq_zero_or_pos r.totalFrames with h0 | hpos
  · simp [h0]
  · have hT : (0 : ℚ) < r.totalFrames := by exact_mod_cast hpos
    have hN : (r.framesDone : ℚ) ≤ r2.framesDone := by exact_mod_cast hfd
    exact (div_le_div_iff_of_pos_right hT).mpr (by linarith)

/-- Claim C4: along every worker execution, the job progress observed over
successive polls is non-decreasing (terminal states admit no further
transition, so this covers the whole lifetime of the job). -/
theorem progress_monotone (r r2 : JobRec)
    (h : Relation.ReflTransGen WorkerStep r r2) :
    progressOf r ≤ progressOf r2 := by
  induction h with
  | refl => exact le_refl _
  | tail hsteps hstep ih =>
      have hf := workerStep_frames _ _ hstep
      exact ih.trans (progressOf_le _ _ hf.1 hf.2)

/-- Witness for C4: dispatching a two-frame job does not decrease its
progress. -/
theorem progress_monotone_witness :
    progressOf (initJob 2) ≤ progressOf { initJob 2 with state := .running } :=
  progress_monotone (initJob 2) { initJob 2 with state := .running }
    (Relation.ReflTransGen.single (WorkerStep.start (initJob 2) rfl))

/-- One worker transition preserves the artifact invariant: the download
location is populated exactly on completed records. -/
theorem workerStep_download (r r2 : JobRec) (h : WorkerStep r r2)
    (hinv : r.download ≠ none ↔ r.state = .completed) :
    r2.download ≠ none ↔ r2.state = .completed := by
  cases h <;> simp_all

/-- Claim C5: for every record reachable by the worker from a freshly
created job, the download artifact location is populated if and only if
the job state is `completed`; failed and in-flight jobs expose none. -/
theorem download_iff_completed (n : ℕ) (r : JobRec)
    (h : Relation.ReflTransGen WorkerStep (initJob n) r) :
    r.download ≠ none ↔ r.state = .completed := by
  induction h with
  | refl => simp [initJob]
  | tail hsteps hstep ih => exact workerStep_download _ _ hstep ih

/-- Witness for C5: a freshly created job exposes no download location and
is not completed. -/
theorem download_iff_completed_witness :
    (initJob 0).download ≠ none ↔ (initJob 0).state = .completed :=
  download_iff_completed 0 (initJob 0) Relation.ReflTransGen.refl

/-- Claim C6: `register` fails with ValidationError exactly when no image
of the call was accepted (every image yielded zero or several dominant
faces); as soon as one image is accepted the call succeeds with a positive
count, however many other images were skipped. -/
theorem register_validation (images : List RefImage) :
    (register images = .error .validationError ↔
      ∀ img ∈ images, acceptedImage img = false)
    ∧ ((∃ img ∈ images, acceptedImage img = true) →
        ∃ n, register images = .ok n ∧ 1 ≤ n) := by
  constructor
  · constructor
    · intro h img hmem
      by_contra hacc
      have hne : (images.filter acceptedImage) ≠ [] := by
        intro hnil
        have := List.filter_eq_nil_iff.mp hnil img hmem
        simp_all
      have : (images.filter acceptedImage).length ≠ 0 := by
        simpa [List.length_eq_zero] using hne
      simp [register, this] at h
    · intro hall
      have hnil : images.filter acceptedImage = [] :=
        List.filter_eq_nil_iff.mpr (by intro img hmem; simp [hall img hmem])
      simp [register, hnil]
  · rintro ⟨img, hmem, hacc⟩
    have hne : (images.filter acceptedImage) ≠ [] := by
      intro hnil
      have := List.filter_eq_nil_iff.mp hnil img hmem
      simp_all
    have hlen : (images.filter acceptedImage).length ≠ 0 := by
      simpa [List.length_eq_zero] using hne
    exact ⟨(images.filter acceptedImage).length, by simp [register, hlen], by omega⟩

/-- Witness for C6: registering a zero-face image together with a one-face
image succeeds, the zero-face image being skipped. -/
theorem register_validation_witness :
    ∃ n, register imagesW = .ok n ∧ 1 ≤ n :=
  (register_validation imagesW).2 ⟨⟨1⟩, by simp [imagesW], by simp [acceptedImage]⟩

/-- `previewBlurPx` is monotone. -/
theorem previewBlurPx_monotone (a b : ℚ) (hab : a ≤ b) :
    previewBlurPx a ≤ previewBlurPx b := by
  unfold previewBlurPx jsRound
  apply Int.floor_le_floor
  linarith

/-- Claim C7: the blur strength is monotonically increasing in the ordinal
blur intensity over 1–10 (witnessed by the preview blur radius computed
from the selected level), and compositing leaves every position outside
the other-classified regions — in particular the owner regions — with its
original pixel value. -/
theorem blur_monotone_owner_untouched (a b : ℚ) (blurPixel : ℕ → ℤ → ℤ)
    (intensity : ℕ) (otherRegions : List (ℕ → Bool)) (frame : ℕ → ℤ) (pos : ℕ)
    (hlo : 1 ≤ a) (hab : a ≤ b) (hhi : b ≤ 10)
    (howner : ∀ r ∈ otherRegions, r pos = false) :
    previewBlurPx a ≤ previewBlurPx b
    ∧ blurFrame blurPixel intensity otherRegions frame pos = frame pos := by
  refine ⟨previewBlurPx_monotone a b hab, ?_⟩
  have hany : otherRegions.any (fun r => r pos) = false := by
    simp only [List.any_eq_false]
    intro r hr
    simp [howner r hr]
  simp [blurFrame, hany]

/-- Witness for C7: blur level 2 previews no stronger than level 7, and a
pixel outside the single other-region keeps its value 9. -/
theorem blur_monotone_owner_untouched_witness :
    previewBlurPx 2 ≤ previewBlurPx 7
    ∧ blurFrame (fun _ p => p + 1) 5 [fun pos => decide (pos < 3)]
        (fun _ => 9) 4 = 9 :=
  blur_monotone_owner_untouched 2 7 (fun _ p => p + 1) 5
    [fun pos => decide (pos < 3)] (fun _ => 9) 4 (by norm_num) (by norm_num)
    (by norm_num)
    (by intro r hr; rw [List.mem_singleton] at hr; subst hr; rfl)

/-- When both the `message` and the `statusMessage` field of a payload are
absent or strings, the final fallback of `extractErrorMessage` is a
non-empty string. -/
theorem finalFallback_nonempty (e : JsVal)
    (hm : isStrOrUndef (e.getField "message"))
    (hs : isStrOrUndef (e.getField "statusMessage")) :
    ∃ s, finalFallback e = .jStr s ∧ s ≠ "" := by
  have hd : defaultErrMsg ≠ "" := by decide
  unfold finalFallback jsOr
  rcases hm with h1 | ⟨s1, h1⟩
  · rw [h1]
    rcases hs with h2 | ⟨s2, h2⟩
    · rw [h2]
      exact ⟨defaultErrMsg, by simp [JsVal.truthy], hd⟩
    · rw [h2]
      by_cases hz : s2 = ""
      · subst hz
        exact ⟨defaultErrMsg, by simp [JsVal.truthy], hd⟩
      · exact ⟨s2, by simp [JsVal.truthy, hz], hz⟩
  · rw [h1]
    by_cases hz : s1 = ""
    · subst hz
      rcases hs with h2 | ⟨s2, h2⟩
      · rw [h2]
        exact ⟨defaultErrMsg, by simp [JsVal.truthy], hd⟩
      · rw [h2]
        by_cases hz2 : s2 = ""
        · subst hz2
          exact ⟨defaultErrMsg, by simp [JsVal.truthy], hd⟩
        · exact ⟨s2, by simp [JsVal.truthy, hz2], hz2⟩
    · exact ⟨s1, by simp [JsVal.truthy, hz], hz⟩

/-- `msgOrFallback` returns a string under well-formed `message` and
`statusMessage` fields, and that string is empty only when the `msg`
value itself was the empty string. -/
theorem msgOrFallback_string (e g : JsVal)
    (hm : isStrOrUndef (e.getField "message"))
    (hs : isStrOrUndef (e.getField "statusMessage")) :
    ∃ s, msgOrFallback e g = .jStr s ∧ (s = "" → g = .jStr "") := by
  cases g
  case jStr t => exact ⟨t, rfl, fun hz => by rw [hz]⟩
  all_goals
    obtain ⟨s, h1, h2⟩ := finalFallback_nonempty e hm hs
    exact ⟨s, h1, fun hz => absurd hz h2⟩

/-- `detailBranch` on a truthy detail returns a string under well-formed
`message` and `statusMessage` fields, and that string is empty only
through one of the leaking detail shapes. -/
theorem detailBranch_string (e d : JsVal) (hd : d.truthy = true)
    (hm : isStrOrUndef (e.getField "message"))
    (hs : isStrOrUndef (e.getField "statusMessage")) :
    ∃ s, detailBranch e d = .jStr s ∧ (s = "" → detailLeak d) := by
  cases d
  case jStr t =>
      refine ⟨t, rfl, fun hz => ?_⟩
      subst hz
      simp [JsVal.truthy] at hd
  case jArr items =>
      cases items with
      | nil =>
          obtain ⟨s, h1, h2⟩ := finalFallback_nonempty e hm hs
          exact ⟨s, h1, fun hz => absurd hz h2⟩
      | cons f rest =>
          cases f
          case jStr t =>
              exact ⟨t, rfl, fun hz => Or.inl (by rw [hz])⟩
          case jArr inner =>
              obtain ⟨s, h1, h2⟩ := msgOrFallback_string e ((JsVal.jArr inner).getField "msg") hm hs
              exact ⟨s, h1, fun hz => Or.inr (h2 hz)⟩
          case jErr m fields =>
              obtain ⟨s, h1, h2⟩ := msgOrFallback_string e ((JsVal.jErr m fields).getField "msg") hm hs
              exact ⟨s, h1, fun hz => Or.inr (h2 hz)⟩
          case jObj fields =>
              obtain ⟨s, h1, h2⟩ := msgOrFallback_string e ((JsVal.jObj fields).getField "msg") hm hs
              exact ⟨s, h1, fun hz => Or.inr (h2 hz)⟩
          all_goals
            obtain ⟨s, h1, h2⟩ := finalFallback_nonempty e hm hs
            exact ⟨s, h1, fun hz => absurd hz h2⟩
  all_goals
    obtain ⟨s, h1, h2⟩ := finalFallback_nonempty e hm hs
    exact ⟨s, h1, fun hz => absurd hz h2⟩

/-- `payloadMessage` returns a string under well-formed `message` and
`statusMessage` fields, empty only through a leaking `data.detail`. -/
theorem payloadMessage_string (e : JsVal)
    (hm : isStrOrUndef (e.getField "message"))
    (hs : isStrOrUndef (e.getField "statusMessage")) :
    ∃ s, payloadMessage e = .jStr s ∧ (s = "" → emptyMsgLeak e) := by
  unfold payloadMessage emptyMsgLeak
  by_cases hd : ((e.getField "data").getField "detail").truthy
  · obtain ⟨s, h1, h2⟩ := detailBranch_string e _ hd hm hs
    exact ⟨s, by simp [hd, h1], h2⟩
  · obtain ⟨s, h1, h2⟩ := finalFallback_nonempty e hm hs
    refine ⟨s, ?_, fun hz => absurd hz h2⟩
    simp only [Bool.not_eq_true] at hd
    simp [hd, h1]

/-- Claim C10 counterexample: on the structured API payload
`{ data: { detail: [""] } }` — squarely in the claimed input domain —
`extractErrorMessage` returns the empty string, so it does not always
return a non-empty string. -/
theorem extractErrorMessage_returns_empty :
    extractErrorMessage emptyDetailPayload = .jStr "" := by rfl

/-- Claim C10, amended: `extractErrorMessage` is total over the modelled
JavaScript values and — whenever the payload's `message` and
`statusMessage` fields are absent or strings, as its `ErrorPayload` type
declares — always returns a string; that string is non-empty except when
`data.detail` is a non-empty array whose first element is the empty
string or an object whose `msg` property is the empty string, in which
case the empty string itself is returned. -/
theorem extractErrorMessage_amended (e : JsVal)
    (hm : isStrOrUndef (e.getField "message"))
    (hs : isStrOrUndef (e.getField "statusMessage")) :
    ∃ s, extractErrorMessage e = .jStr s ∧ (s = "" → emptyMsgLeak e) := by
  by_cases ht : e.truthy
  · cases e with
    | jStr t =>
        refine ⟨t, by simp [extractErrorMessage, ht], fun hz => ?_⟩
        subst hz
        simp [JsVal.truthy] at ht
    | jErr m fields =>
        by_cases hmz : m = ""
        · subst hmz
          obtain ⟨s, h1, h2⟩ := payloadMessage_string (.jErr "" fields) hm hs
          exact ⟨s, by simp [extractErrorMessage, ht, h1], h2⟩
        · exact ⟨m, by simp [extractErrorMessage, ht, hmz], fun hz => absurd hz hmz⟩
    | jUndefined => exact absurd ht (by simp [JsVal.truthy])
    | jNull => exact absurd ht (by simp [JsVal.truthy])
    | jNaN => exact absurd ht (by simp [JsVal.truthy])
    | jBool b =>
        obtain ⟨s, h1, h2⟩ := payloadMessage_string (.jBool b) hm hs
        exact ⟨s, by simp [extractErrorMessage, ht, h1], h2⟩
    | jNum q =>
        obtain ⟨s, h1, h2⟩ := payloadMessage_string (.jNum q) hm hs
        exact ⟨s, by simp [extractErrorMessage, ht, h1], h2⟩
    | jInfPos =>
        obtain ⟨s, h1, h2⟩ := payloadMessage_string .jInfPos hm hs
        exact ⟨s, by simp [extractErrorMessage, ht, h1], h2⟩
    | jInfNeg =>
        obtain ⟨s, h1, h2⟩ := payloadMessage_string .jInfNeg hm hs
        exact ⟨s, by simp [extractErrorMessage, ht, h1], h2⟩
    | jArr items =>
        obtain ⟨s, h1, h2⟩ := payloadMessage_string (.jArr items) hm hs
        exact ⟨s, by simp [extractErrorMessage, ht, h1], h2⟩
    | jObj fields =>
        obtain ⟨s, h1, h2⟩ := payloadMessage_string (.jObj fields) hm hs
        exact ⟨s, by simp [extractErrorMessage, ht, h1], h2⟩
  · have ht2 : e.truthy = false := by simpa using ht
    refine ⟨defaultErrMsg, by simp [extractErrorMessage, ht2], fun hz => ?_⟩
    exact absurd hz (by decide)

/-- Witness for the amended C10: on a payload carrying a plain string
detail, `extractErrorMessage` returns a string, non-empty because the
payload has no leaking detail shape. -/
theorem extractErrorMessage_amended_witness :
    ∃ s, extractErrorMessage payloadW = .jStr s ∧ (s = "" → emptyMsgLeak payloadW) :=
  extractErrorMessage_amended payloadW (Or.inl rfl) (Or.inl rfl)
